import Mathlib

/-!
Verification of the DNS record-data core: the byte cursor and byte sink
primitives of `src/bits/bytes.rs` and the generic record data type of
`src/bits/rdata.rs`, shallowly embedded over `List Nat` byte views.
Machine integers are modelled as `Nat` with explicit `% 2 ^ w` where the
machine width matters.  External collaborators of the core (the `Nest` and
parser types, the master-file text stream, the IANA type registry and the
concrete record-data types) are not part of the two source files; their
definitions below are modelled from the spec and say so in their doc
comments.
-/

namespace Dns

/-- Error type of the cursor primitives; the only variant the two source
files produce is the buffer underrun. -/
inductive ParseError
  | UnexpectedEnd
deriving DecidableEq, Repr

/-- Result type of the parsing primitives, mirroring `ParseResult` of
`bits/error.rs`. -/
abbrev ParseResult (α : Type) := Except ParseError α

/-- Big-endian interpretation of a byte list, used to model the
`u16::from_be` / `u32::from_be` reads of `bytes.rs`. -/
def from_be (l : List Nat) : Nat := l.foldl (fun a b => a * 256 + b) 0

/-- `check_len` of `impl BytesSlice for [u8]`: succeeds iff `len` does not
exceed the view length. -/
def check_len (b : List Nat) (len : Nat) : ParseResult Unit :=
  if len > b.length then .error .UnexpectedEnd else .ok ()

/-- `split_u8` of `impl BytesSlice for [u8]`: `split_first` on the view. -/
def split_u8 (b : List Nat) : ParseResult (Nat × List Nat) :=
  match b with
  | [] => .error .UnexpectedEnd
  | l :: r => .ok (l, r)

/-- `split_u16` of `impl BytesSlice for [u8]`: checks the length, splits
two bytes off and reads them big-endian. -/
def split_u16 (b : List Nat) : ParseResult (Nat × List Nat) :=
  match check_len b 2 with
  | .error e => .error e
  | .ok _ => .ok (from_be (b.take 2), b.drop 2)

/-- `split_u32` of `impl BytesSlice for [u8]`, including the source's
second (redundant) length test. -/
def split_u32 (b : List Nat) : ParseResult (Nat × List Nat) :=
  match check_len b 4 with
  | .error e => .error e
  | .ok _ =>
    if b.length < 4 then .error .UnexpectedEnd
    else .ok (from_be (b.take 4), b.drop 4)

/-- `split_bytes` of `impl BytesSlice for [u8]`: checks the length and
splits at `at_`. -/
def split_bytes (b : List Nat) (at_ : Nat) : ParseResult (List Nat × List Nat) :=
  match check_len b at_ with
  | .error e => .error e
  | .ok _ => .ok (b.take at_, b.drop at_)

/-- `tail` of `impl BytesSlice for [u8]`, including the source's second
(redundant) length test. -/
def tail (b : List Nat) (start : Nat) : ParseResult (List Nat) :=
  match check_len b start with
  | .error e => .error e
  | .ok _ =>
    if b.length < start then .error .UnexpectedEnd
    else .ok (b.drop start)

/-- `push_bytes` of `impl BytesBuf for Vec<u8>`: appends the span. -/
def push_bytes (buf data : List Nat) : List Nat := buf ++ data

/-- The single byte a `u8` occupies in memory, as pushed by `push_u8`. -/
def to_be_u8 (v : Nat) : List Nat := [v % 2 ^ 8]

/-- The two bytes of `data.to_be()` for a `u16`, in memory order. -/
def to_be_u16 (v : Nat) : List Nat := [v / 2 ^ 8 % 2 ^ 8, v % 2 ^ 8]

/-- The four bytes of `data.to_be()` for a `u32`, in memory order. -/
def to_be_u32 (v : Nat) : List Nat :=
  [v / 2 ^ 24 % 2 ^ 8, v / 2 ^ 16 % 2 ^ 8, v / 2 ^ 8 % 2 ^ 8, v % 2 ^ 8]

/-- `push_u8` of trait `BytesBuf`: delegates to `push_bytes`. -/
def push_u8 (buf : List Nat) (v : Nat) : List Nat := push_bytes buf (to_be_u8 v)

/-- `push_u16` of trait `BytesBuf`: converts to big-endian and delegates to
`push_bytes`. -/
def push_u16 (buf : List Nat) (v : Nat) : List Nat := push_bytes buf (to_be_u16 v)

/-- `push_u32` of trait `BytesBuf`: converts to big-endian and delegates to
`push_bytes`. -/
def push_u32 (buf : List Nat) (v : Nat) : List Nat := push_bytes buf (to_be_u32 v)

/-- Modelled from the spec: the external IANA record-type registry
(`iana::RRType`).  The constructors are exactly the tags the two source
files dispatch on by name; `Other` stands for every remaining IANA code
(the registry only needs equality comparison here). -/
inductive RRType
  | A | Cname | Hinfo | Mb | Md | Mf | Mg | Minfo | Mr | Mx | Ns | Null
  | Ptr | Soa | Txt | Wks | Aaaa
  | Other (code : Nat)
deriving DecidableEq, Repr

/-- Modelled from the spec: a `Nest` is an opaque re-parseable capture of
exactly the bytes of one record's data. -/
structure Nest where
  bytes : List Nat
deriving DecidableEq, Repr

/-- Modelled from the spec: the cursor-like parser (`ParseBytes`) over a
byte view; `bytes` is the unconsumed remainder. -/
structure SliceParser where
  bytes : List Nat
deriving DecidableEq, Repr

/-- Modelled from the spec: the number of bytes left in the parser. -/
def SliceParser.left (p : SliceParser) : Nat := p.bytes.length

/-- Modelled from the spec: `parse_nest len` captures the next `len` bytes
as a `Nest` and advances past them; it fails iff fewer than `len` bytes
remain. -/
def SliceParser.parse_nest (p : SliceParser) (len : Nat) :
    ParseResult (Nest × SliceParser) :=
  if len > p.bytes.length then .error .UnexpectedEnd
  else .ok (⟨p.bytes.take len⟩, ⟨p.bytes.drop len⟩)

/-- Modelled from the spec: `Nest::parser()` builds a fresh cursor over the
nest's bytes. -/
def Nest.parser (n : Nest) : SliceParser := ⟨n.bytes⟩

/-- Compose errors are propagated from sub-components; nothing in the two
source files ever produces one. -/
inductive ComposeError
  | subComponent
deriving DecidableEq, Repr

/-- Result type of composition, mirroring `ComposeResult`. -/
abbrev ComposeResult (α : Type) := Except ComposeError α

/-- Modelled from the spec: `Nest::compose` writes the raw captured bytes
to the sink unchanged. -/
def Nest.compose (n : Nest) (target : List Nat) : ComposeResult (List Nat) :=
  .ok (push_bytes target n.bytes)

/-- `GenericRecordData` of `rdata.rs`: a record-type tag plus the raw
captured record data. -/
structure GenericRecordData where
  rtype : RRType
  data : Nest

/-- `GenericRecordData::new`. -/
def GenericRecordData.new (rtype : RRType) (data : Nest) : GenericRecordData :=
  ⟨rtype, data⟩

/-- `impl RecordData for GenericRecordData::parse`: captures the entire
remainder of the cursor as a `Nest`. -/
def GenericRecordData.parse (rtype : RRType) (p : SliceParser) :
    Option (ParseResult (GenericRecordData × SliceParser)) :=
  let len := p.left
  match p.parse_nest len with
  | .error err => some (.error err)
  | .ok (nest, p1) => some (.ok (GenericRecordData.new rtype nest, p1))

/-- `impl RecordData for GenericRecordData::compose`: delegates to the
nest. -/
def GenericRecordData.compose (g : GenericRecordData) (target : List Nat) :
    ComposeResult (List Nat) :=
  g.data.compose target

/-- Formatter errors (`fmt::Error`); the display path only ever forwards
them from a concrete type's own formatter. -/
inductive FmtError
  | fmtFailed
deriving DecidableEq, Repr

/-- Modelled from the spec: one concrete record-data type of the external
`rdata` module, as the two source files see it — a value type with
equality, the `RecordData::parse` entry point (`none` meaning the type
declines the tag) and a display routine appending to a formatter. -/
structure ConcreteBundle where
  Val : Type
  deq : DecidableEq Val
  parse : RRType → SliceParser → Option (ParseResult (Val × SliceParser))
  disp : Val → String → Except FmtError String

/-- The outcome `D::parse(g.rtype, g.data.parser())` as compared by
`rdata_eq`: the parsed value or error, without the final parser state. -/
def parse_value (D : ConcreteBundle) (g : GenericRecordData) :
    Option (Except ParseError D.Val) :=
  match D.parse g.rtype g.data.parser with
  | none => none
  | some (.error e) => some (.error e)
  | some (.ok (v, _)) => some (.ok v)

/-- Equality of two parse outcomes, as Rust's derived equality on
`Option<Result<D, ParseError>>` decides it. -/
def outcome_beq (D : ConcreteBundle) :
    Option (Except ParseError D.Val) → Option (Except ParseError D.Val) → Bool
  | none, none => true
  | some (.error e1), some (.error e2) => decide (e1 = e2)
  | some (.ok v1), some (.ok v2) => @decide (v1 = v2) (D.deq v1 v2)
  | _, _ => false

/-- `rdata_eq` of `rdata.rs`: parse both sides as the concrete type and
compare the full outcomes. -/
def rdata_eq (D : ConcreteBundle) (left right : GenericRecordData) : Bool :=
  outcome_beq D (parse_value D left) (parse_value D right)

/-- Modelled from the spec: the concrete record-data types of the external
`rdata` module that the two source files name, one bundle each. -/
structure ConcreteFamily where
  a : ConcreteBundle
  cname : ConcreteBundle
  hinfo : ConcreteBundle
  mb : ConcreteBundle
  md : ConcreteBundle
  mf : ConcreteBundle
  mg : ConcreteBundle
  minfo : ConcreteBundle
  mr : ConcreteBundle
  mx : ConcreteBundle
  ns : ConcreteBundle
  null : ConcreteBundle
  ptr : ConcreteBundle
  soa : ConcreteBundle
  txt : ConcreteBundle
  wks : ConcreteBundle
  aaaa : ConcreteBundle

/-- `impl PartialEq for GenericRecordData::eq` (the name is spelled
`GenericRecordData.eq` here): unequal tags compare unequal; the twelve
RFC 1035 tags listed in the source re-parse and compare outcomes; every
other tag compares the raw nest bytes. -/
def GenericRecordData.eq (F : ConcreteFamily) (self other : GenericRecordData) :
    Bool :=
  if self.rtype ≠ other.rtype then false
  else
    match self.rtype with
    | .Cname => rdata_eq F.cname self other
    | .Mb => rdata_eq F.mb self other
    | .Md => rdata_eq F.md self other
    | .Mf => rdata_eq F.mf self other
    | .Mg => rdata_eq F.mg self other
    | .Minfo => rdata_eq F.minfo self other
    | .Mr => rdata_eq F.mr self other
    | .Mx => rdata_eq F.mx self other
    | .Ns => rdata_eq F.ns self other
    | .Ptr => rdata_eq F.ptr self other
    | .Soa => rdata_eq F.soa self other
    | .Txt => rdata_eq F.txt self other
    | _ => decide (self.data.bytes = other.data.bytes)

/-- The concrete type `impl PartialEq` dispatches to for each tag: `some`
for the twelve specially-handled RFC 1035 tags, `none` for every tag that
compares raw bytes. -/
def eqBundle (F : ConcreteFamily) : RRType → Option ConcreteBundle
  | .Cname => some F.cname
  | .Mb => some F.mb
  | .Md => some F.md
  | .Mf => some F.mf
  | .Mg => some F.mg
  | .Minfo => some F.minfo
  | .Mr => some F.mr
  | .Mx => some F.mx
  | .Ns => some F.ns
  | .Ptr => some F.ptr
  | .Soa => some F.soa
  | .Txt => some F.txt
  | _ => none

/-- `GenericRecordData::fmt::<R>`: re-parse as the concrete type; on
success defer to its formatter, otherwise format nothing. -/
def GenericRecordData.fmtAs (g : GenericRecordData) (D : ConcreteBundle)
    (f : String) : Except FmtError String :=
  match D.parse g.rtype g.data.parser with
  | some (.ok (v, _)) => D.disp v f
  | some (.error _) => .ok f
  | none => .ok f

/-- `impl fmt::Display for GenericRecordData`: dispatch on the stored tag
through the fixed table; unknown tags render the placeholder. -/
def GenericRecordData.displayFmt (g : GenericRecordData) (F : ConcreteFamily)
    (f : String) : Except FmtError String :=
  match g.rtype with
  | .A => g.fmtAs F.a f
  | .Cname => g.fmtAs F.cname f
  | .Hinfo => g.fmtAs F.hinfo f
  | .Mb => g.fmtAs F.mb f
  | .Md => g.fmtAs F.md f
  | .Mf => g.fmtAs F.mf f
  | .Mg => g.fmtAs F.mg f
  | .Minfo => g.fmtAs F.minfo f
  | .Mr => g.fmtAs F.mr f
  | .Mx => g.fmtAs F.mx f
  | .Ns => g.fmtAs F.ns f
  | .Null => g.fmtAs F.null f
  | .Ptr => g.fmtAs F.ptr f
  | .Soa => g.fmtAs F.soa f
  | .Txt => g.fmtAs F.txt f
  | .Wks => g.fmtAs F.wks f
  | .Aaaa => g.fmtAs F.aaaa f
  | _ => .ok (f ++ "...")

/-- The concrete type the `Display` dispatch table maps each tag to:
`some` for the seventeen known tags, `none` for every other tag. -/
def displayBundle (F : ConcreteFamily) : RRType → Option ConcreteBundle
  | .A => some F.a
  | .Cname => some F.cname
  | .Hinfo => some F.hinfo
  | .Mb => some F.mb
  | .Md => some F.md
  | .Mf => some F.mf
  | .Mg => some F.mg
  | .Minfo => some F.minfo
  | .Mr => some F.mr
  | .Mx => some F.mx
  | .Ns => some F.ns
  | .Null => some F.null
  | .Ptr => some F.ptr
  | .Soa => some F.soa
  | .Txt => some F.txt
  | .Wks => some F.wks
  | .Aaaa => some F.aaaa
  | _ => none

/-- Errors of the master-file text scanner (`master::SyntaxError`):
`LongGenericData` is the length overrun raised by `scan_into`'s callback;
the remaining variants model the underlying stream's own scan errors,
which `scan_into` merely propagates. -/
inductive ScanError
  | LongGenericData
  | ExpectedLiteral
  | ExpectedNumber
  | ExpectedHexWord
deriving DecidableEq, Repr

/-- Modelled from the spec: one token of the master-file text stream — a
literal (as its bytes), a decimal number, or a whitespace-separated word
of hex digit pairs (carried already decoded, one `Nat` per pair). -/
inductive Token
  | lit (bytes : List Nat)
  | num (value : Nat)
  | hexWord (bytes : List Nat)
deriving DecidableEq, Repr

/-- Modelled from the spec: the master-file text stream
(`master::Stream`), as the sequence of tokens not yet consumed. -/
structure MasterStream where
  tokens : List Token
deriving DecidableEq, Repr

/-- The bytes of the literal marker `\\#` of the RFC 3597 generic
syntax. -/
def markerBytes : List Nat := [0x5C, 0x23]

/-- Modelled from the spec: `Stream::skip_literal` consumes the next token
iff it is exactly the given literal. -/
def MasterStream.skip_literal (st : MasterStream) (l : List Nat) :
    Except ScanError MasterStream :=
  match st.tokens with
  | Token.lit b :: rest => if b = l then .ok ⟨rest⟩ else .error .ExpectedLiteral
  | _ => .error .ExpectedLiteral

/-- Modelled from the spec: `Stream::scan_u16` consumes the next token iff
it is a decimal number fitting a 16-bit value. -/
def MasterStream.scan_u16 (st : MasterStream) :
    Except ScanError (Nat × MasterStream) :=
  match st.tokens with
  | Token.num n :: rest =>
      if n < 2 ^ 16 then .ok (n, ⟨rest⟩) else .error .ExpectedNumber
  | _ => .error .ExpectedNumber

/-- The callback `scan_into` hands to `scan_hex_word`, over the state
`(len, target)`: reject the byte with `LongGenericData` once `len` is
exhausted, otherwise push it and count it. -/
def genericDataStep (state : Nat × List Nat) (v : Nat) :
    Except ScanError (Nat × List Nat) :=
  match state with
  | (len, target) =>
    if len = 0 then .error .LongGenericData
    else .ok (len - 1, push_u8 target v)

/-- Modelled from the spec: `scan_hex_word` invokes the callback once per
decoded byte of the word, stopping at the first callback error; the state
returned with an error is the one before the failing byte (a failing
callback commits nothing). -/
def foldBytes {σ : Type} (cb : σ → Nat → Except ScanError σ) :
    σ → List Nat → σ × Option ScanError
  | s, [] => (s, none)
  | s, v :: vs =>
    match cb s v with
    | .error e => (s, some e)
    | .ok s1 => foldBytes cb s1 vs

/-- The `while len > 0` loop of `GenericRecordData::scan_into`: each
iteration scans the next hex word (modelled `scan_hex_word`, inlined here
so the recursion is structural on the token list) through
`genericDataStep`.  Returns the final sink, the unconsumed tokens, and the
error if one occurred. -/
def scanGenericLoop : List Token → Nat → List Nat →
    List Nat × List Token × Option ScanError
  | toks, len, target =>
    if len > 0 then
      match toks with
      | Token.hexWord bs :: rest =>
        match foldBytes genericDataStep (len, target) bs with
        | ((len1, target1), none) => scanGenericLoop rest len1 target1
        | ((_, target1), some e) => (target1, rest, some e)
      | _ => (target, toks, some .ExpectedHexWord)
    else (target, toks, none)

/-- `GenericRecordData::scan_into`: skip the `\\#` marker, scan the 16-bit
decimal length, then run the hex-word loop (`reserve` is a no-op hint).
Returns the final sink, the remaining stream, and the error if one
occurred — mirroring the Rust function, which mutates the sink in place
and returns a `Result`. -/
def GenericRecordData.scan_into (st : MasterStream) (target : List Nat) :
    List Nat × MasterStream × Option ScanError :=
  match st.skip_literal markerBytes with
  | .error e => (target, st, some e)
  | .ok st1 =>
    match st1.scan_u16 with
    | .error e => (target, st1, some e)
    | .ok (len, st2) =>
      match scanGenericLoop st2.tokens len target with
      | (target1, toks1, err) => (target1, ⟨toks1⟩, err)

/-- A concrete record type that declines every tag; used to instantiate
the abstract concrete-type family in witnesses. -/
def declineBundle : ConcreteBundle where
  Val := Unit
  deq := inferInstance
  parse := fun _ _ => none
  disp := fun _ f => .ok f

/-- A concrete record type whose parse always fails with `UnexpectedEnd`;
used to instantiate the abstract concrete-type family in witnesses. -/
def errorBundle : ConcreteBundle where
  Val := Unit
  deq := inferInstance
  parse := fun _ _ => some (.error .UnexpectedEnd)
  disp := fun _ f => .ok f

/-- A concrete record type that parses the first byte of the data as its
value; used to instantiate the abstract concrete-type family in
witnesses. -/
def firstByteBundle : ConcreteBundle where
  Val := Nat
  deq := inferInstance
  parse := fun _ p =>
    match split_u8 p.bytes with
    | .error e => some (.error e)
    | .ok (v, r) => some (.ok (v, ⟨r⟩))
  disp := fun v f => .ok (f ++ toString v)

/-- The family instantiating every known concrete type to
`declineBundle`. -/
def declineFamily : ConcreteFamily :=
  ⟨declineBundle, declineBundle, declineBundle, declineBundle, declineBundle,
   declineBundle, declineBundle, declineBundle, declineBundle, declineBundle,
   declineBundle, declineBundle, declineBundle, declineBundle, declineBundle,
   declineBundle, declineBundle⟩

/-- The family instantiating every known concrete type to
`errorBundle`. -/
def errorFamily : ConcreteFamily :=
  ⟨errorBundle, errorBundle, errorBundle, errorBundle, errorBundle,
   errorBundle, errorBundle, errorBundle, errorBundle, errorBundle,
   errorBundle, errorBundle, errorBundle, errorBundle, errorBundle,
   errorBundle, errorBundle⟩

/-- The family instantiating every known concrete type to
`firstByteBundle`. -/
def firstByteFamily : ConcreteFamily :=
  ⟨firstByteBundle, firstByteBundle, firstByteBundle, firstByteBundle,
   firstByteBundle, firstByteBundle, firstByteBundle, firstByteBundle,
   firstByteBundle, firstByteBundle, firstByteBundle, firstByteBundle,
   firstByteBundle, firstByteBundle, firstByteBundle, firstByteBundle,
   firstByteBundle⟩

theorem check_len_ok_iff (b : List Nat) (n : Nat) :
    check_len b n = .ok () ↔ n ≤ b.length := by
  by_cases h : n > b.length <;> simp [check_len, h] <;> omega

theorem check_len_err_iff (b : List Nat) (n : Nat) :
    check_len b n = .error .UnexpectedEnd ↔ b.length < n := by
  by_cases h : n > b.length <;> simp [check_len, h]

theorem split_u8_err_iff (b : List Nat) :
    split_u8 b = .error .UnexpectedEnd ↔ b = [] := by
  cases b <;> simp [split_u8]

theorem split_u16_err_iff (b : List Nat) :
    split_u16 b = .error .UnexpectedEnd ↔ b.length < 2 := by
  by_cases h : (2 : Nat) > b.length <;> simp [split_u16, check_len, h]

theorem split_u32_err_iff (b : List Nat) :
    split_u32 b = .error .UnexpectedEnd ↔ b.length < 4 := by
  by_cases h : (4 : Nat) > b.length <;> simp [split_u32, check_len, h]

theorem split_bytes_err_iff (b : List Nat) (n : Nat) :
    split_bytes b n = .error .UnexpectedEnd ↔ b.length < n := by
  by_cases h : n > b.length <;> simp [split_bytes, check_len, h]

theorem tail_err_iff (b : List Nat) (n : Nat) :
    tail b n = .error .UnexpectedEnd ↔ b.length < n := by
  by_cases h : n > b.length <;> simp [tail, check_len, h]

/-- C2: `check_len(len)` succeeds iff `len` does not exceed the view
length, and each cursor operation fails with `UnexpectedEnd` exactly when
`check_len` of its required size does: `split_u8` iff the view is empty,
`split_u16` iff fewer than 2 bytes remain, `split_u32` iff fewer than 4,
`split_bytes(n)` and `tail(n)` iff `n` exceeds the view length.  The
operations are pure functions of the view, so a failing operation returns
only the error and the view is untouched. -/
theorem cursor_bounds_spec (b : List Nat) (n : Nat) :
    ((check_len b n = .ok ()) ↔ n ≤ b.length) ∧
    ((split_u8 b = .error .UnexpectedEnd) ↔ check_len b 1 = .error .UnexpectedEnd) ∧
    ((split_u8 b = .error .UnexpectedEnd) ↔ b = []) ∧
    ((split_u16 b = .error .UnexpectedEnd) ↔ check_len b 2 = .error .UnexpectedEnd) ∧
    ((split_u16 b = .error .UnexpectedEnd) ↔ b.length < 2) ∧
    ((split_u32 b = .error .UnexpectedEnd) ↔ check_len b 4 = .error .UnexpectedEnd) ∧
    ((split_u32 b = .error .UnexpectedEnd) ↔ b.length < 4) ∧
    ((split_bytes b n = .error .UnexpectedEnd) ↔ check_len b n = .error .UnexpectedEnd) ∧
    ((split_bytes b n = .error .UnexpectedEnd) ↔ b.length < n) ∧
    ((tail b n = .error .UnexpectedEnd) ↔ check_len b n = .error .UnexpectedEnd) ∧
    ((tail b n = .error .UnexpectedEnd) ↔ b.length < n) := by
  refine ⟨check_len_ok_iff b n, ?_, split_u8_err_iff b, ?_, split_u16_err_iff b,
    ?_, split_u32_err_iff b, ?_, split_bytes_err_iff b n, ?_, tail_err_iff b n⟩
  · rw [split_u8_err_iff, check_len_err_iff]
    cases b <;> simp
  · rw [split_u16_err_iff, check_len_err_iff]
  · rw [split_u32_err_iff, check_len_err_iff]
  · rw [split_bytes_err_iff, check_len_err_iff]
  · rw [tail_err_iff, check_len_err_iff]

theorem split_u8_ok_shape (b : List Nat) (v : Nat) (r : List Nat)
    (h : split_u8 b = .ok (v, r)) : b = v :: r := by
  cases b with
  | nil => simp [split_u8] at h
  | cons a t =>
    simp [split_u8] at h
    simp [h.1, h.2]

theorem split_u16_ok_shape (b : List Nat) (v : Nat) (r : List Nat)
    (h : split_u16 b = .ok (v, r)) : r = b.drop 2 ∧ 2 ≤ b.length := by
  by_cases hl : (2 : Nat) > b.length
  · simp [split_u16, check_len, hl] at h
  · simp [split_u16, check_len, hl] at h
    exact ⟨h.2.symm, by omega⟩

theorem split_u32_ok_shape (b : List Nat) (v : Nat) (r : List Nat)
    (h : split_u32 b = .ok (v, r)) : r = b.drop 4 ∧ 4 ≤ b.length := by
  by_cases hl : (4 : Nat) > b.length
  · simp [split_u32, check_len, hl] at h
  · simp [split_u32, check_len, hl] at h
    exact ⟨h.2.symm, by omega⟩

theorem split_bytes_ok_shape (b : List Nat) (n : Nat) (l r : List Nat)
    (h : split_bytes b n = .ok (l, r)) :
    l = b.take n ∧ r = b.drop n ∧ n ≤ b.length := by
  by_cases hl : n > b.length
  · simp [split_bytes, check_len, hl] at h
  · simp [split_bytes, check_len, hl] at h
    exact ⟨h.1.symm, h.2.symm, by omega⟩

theorem tail_ok_shape (b : List Nat) (n : Nat) (r : List Nat)
    (h : tail b n = .ok r) : r = b.drop n ∧ n ≤ b.length := by
  by_cases hl : n > b.length
  · simp [tail, check_len, hl] at h
  · simp [tail, check_len, hl] at h
    exact ⟨h.symm, by omega⟩

/-- C8: every successful cursor extraction returns a remaining view of
length exactly the original length minus the bytes consumed (1, 2, 4, `n`
and `n` respectively), and the remainder is literally the corresponding
sub-view of the original bytes, which are never mutated. -/
theorem cursor_length_invariant (b : List Nat) (n v : Nat) (l r : List Nat) :
    (split_u8 b = .ok (v, r) → r.length = b.length - 1 ∧ b = v :: r) ∧
    (split_u16 b = .ok (v, r) → r.length = b.length - 2 ∧ r = b.drop 2) ∧
    (split_u32 b = .ok (v, r) → r.length = b.length - 4 ∧ r = b.drop 4) ∧
    (split_bytes b n = .ok (l, r) →
      l.length = n ∧ r.length = b.length - n ∧ l ++ r = b) ∧
    (tail b n = .ok r → r.length = b.length - n ∧ r = b.drop n) := by
  refine ⟨fun h => ?_, fun h => ?_, fun h => ?_, fun h => ?_, fun h => ?_⟩
  · have hb := split_u8_ok_shape b v r h
    constructor
    · rw [hb]; simp
    · exact hb
  · obtain ⟨hr, hlen⟩ := split_u16_ok_shape b v r h
    subst hr; simp
  · obtain ⟨hr, hlen⟩ := split_u32_ok_shape b v r h
    subst hr; simp
  · obtain ⟨hl, hr, hlen⟩ := split_bytes_ok_shape b n l r h
    subst hl; subst hr
    refine ⟨?_, by simp, List.take_append_drop n b⟩
    simp [hlen]
  · obtain ⟨hr, hlen⟩ := tail_ok_shape b n r h
    subst hr; simp

/-- Closed witness for `cursor_length_invariant`, instantiating every
implication at a concrete view. -/
theorem cursor_length_invariant_witness :
    (([2, 3, 4, 5, 6] : List Nat).length = ([1, 2, 3, 4, 5, 6] : List Nat).length - 1 ∧
      ([1, 2, 3, 4, 5, 6] : List Nat) = 1 :: [2, 3, 4, 5, 6]) ∧
    (([3, 4, 5, 6] : List Nat).length = ([1, 2, 3, 4, 5, 6] : List Nat).length - 2 ∧
      ([3, 4, 5, 6] : List Nat) = ([1, 2, 3, 4, 5, 6] : List Nat).drop 2) ∧
    (([5, 6] : List Nat).length = ([1, 2, 3, 4, 5, 6] : List Nat).length - 4 ∧
      ([5, 6] : List Nat) = ([1, 2, 3, 4, 5, 6] : List Nat).drop 4) ∧
    (([1, 2, 3] : List Nat).length = 3 ∧
      ([4, 5, 6] : List Nat).length = ([1, 2, 3, 4, 5, 6] : List Nat).length - 3 ∧
      ([1, 2, 3] : List Nat) ++ [4, 5, 6] = [1, 2, 3, 4, 5, 6]) ∧
    (([4, 5, 6] : List Nat).length = ([1, 2, 3, 4, 5, 6] : List Nat).length - 3 ∧
      ([4, 5, 6] : List Nat) = ([1, 2, 3, 4, 5, 6] : List Nat).drop 3) :=
  ⟨(cursor_length_invariant [1, 2, 3, 4, 5, 6] 0 1 [] [2, 3, 4, 5, 6]).1 rfl,
   (cursor_length_invariant [1, 2, 3, 4, 5, 6] 0 258 [] [3, 4, 5, 6]).2.1 rfl,
   (cursor_length_invariant [1, 2, 3, 4, 5, 6] 0 16909060 [] [5, 6]).2.2.1 rfl,
   (cursor_length_invariant [1, 2, 3, 4, 5, 6] 3 0 [1, 2, 3] [4, 5, 6]).2.2.2.1 rfl,
   (cursor_length_invariant [1, 2, 3, 4, 5, 6] 3 0 [] [4, 5, 6]).2.2.2.2 rfl⟩

/-- C3: the generic record data parser never declines: for every tag and
cursor it captures the entire remainder as a `Nest`, returns success, and
leaves the cursor empty. -/
theorem generic_parse_total (rtype : RRType) (p : SliceParser) :
    GenericRecordData.parse rtype p =
      some (.ok (GenericRecordData.new rtype ⟨p.bytes⟩, ⟨[]⟩)) := by
  simp [GenericRecordData.parse, SliceParser.parse_nest, SliceParser.left]

/-- C6: composing a generic record data value writes the nest's raw
captured bytes to the sink unchanged, with nothing else appended or
transformed. -/
theorem generic_compose_raw (g : GenericRecordData) (target : List Nat) :
    g.compose target = .ok (target ++ g.data.bytes) := rfl

theorem split_u16_cons (b0 b1 : Nat) (r : List Nat) :
    split_u16 (b0 :: b1 :: r) = .ok (b0 * 2 ^ 8 + b1, r) := by
  have hc : check_len (b0 :: b1 :: r) 2 = .ok () :=
    (check_len_ok_iff _ _).mpr (by simp)
  simp only [split_u16, hc, List.take_succ_cons, List.take_zero,
    List.drop_succ_cons, List.drop_zero, from_be, List.foldl_cons, List.foldl_nil]
  norm_num

theorem split_u32_cons (b0 b1 b2 b3 : Nat) (r : List Nat) :
    split_u32 (b0 :: b1 :: b2 :: b3 :: r) =
      .ok (b0 * 2 ^ 24 + b1 * 2 ^ 16 + b2 * 2 ^ 8 + b3, r) := by
  have hc : check_len (b0 :: b1 :: b2 :: b3 :: r) 4 = .ok () :=
    (check_len_ok_iff _ _).mpr (by simp)
  have hlen : ¬ (b0 :: b1 :: b2 :: b3 :: r).length < 4 := by simp
  simp only [split_u32, hc, hlen, if_false, List.take_succ_cons, List.take_zero,
    List.drop_succ_cons, List.drop_zero, from_be, List.foldl_cons, List.foldl_nil]
  norm_num
  ring

/-- C4: `split_u16` and `split_u32` read their bytes big-endian (in
particular `[0x01, 0x02]` yields `0x0102`), and `push_u16`/`push_u32`
append exactly the big-endian bytes of their value (in particular
`push_u16 0x0102` appends `[0x01, 0x02]`). -/
theorem endianness_spec :
    (∀ b0 b1 : Nat, ∀ r : List Nat,
      split_u16 (b0 :: b1 :: r) = .ok (b0 * 2 ^ 8 + b1, r)) ∧
    (∀ b0 b1 b2 b3 : Nat, ∀ r : List Nat,
      split_u32 (b0 :: b1 :: b2 :: b3 :: r) =
        .ok (b0 * 2 ^ 24 + b1 * 2 ^ 16 + b2 * 2 ^ 8 + b3, r)) ∧
    (split_u16 [0x01, 0x02] = .ok (0x0102, [])) ∧
    (∀ s : List Nat, ∀ v : Nat, v < 2 ^ 16 →
      push_u16 s v = s ++ [v >>> 8, v % 2 ^ 8]) ∧
    (∀ s : List Nat, ∀ v : Nat, v < 2 ^ 32 →
      push_u32 s v =
        s ++ [v >>> 24, v >>> 16 % 2 ^ 8, v >>> 8 % 2 ^ 8, v % 2 ^ 8]) ∧
    (push_u16 [] 0x0102 = [0x01, 0x02]) := by
  refine ⟨split_u16_cons, split_u32_cons, ?_, ?_, ?_, by decide⟩
  · have := split_u16_cons 0x01 0x02 []
    simpa using this
  · intro s v h
    have h1 : v >>> 8 = v / 2 ^ 8 := Nat.shiftRight_eq_div_pow v 8
    have hv : v / 2 ^ 8 < 2 ^ 8 :=
      Nat.div_lt_of_lt_mul (by norm_num at h ⊢; exact h)
    have h2 : v / 2 ^ 8 % 2 ^ 8 = v / 2 ^ 8 := Nat.mod_eq_of_lt hv
    simp [push_u16, push_bytes, to_be_u16, h1, h2]
    exact Nat.div_lt_of_lt_mul (by norm_num at h ⊢; exact h)
  · intro s v h
    have h1 : v >>> 24 = v / 2 ^ 24 := Nat.shiftRight_eq_div_pow v 24
    have h2 : v >>> 16 = v / 2 ^ 16 := Nat.shiftRight_eq_div_pow v 16
    have h3 : v >>> 8 = v / 2 ^ 8 := Nat.shiftRight_eq_div_pow v 8
    have hv : v / 2 ^ 24 < 2 ^ 8 :=
      Nat.div_lt_of_lt_mul (by norm_num at h ⊢; exact h)
    have h4 : v / 2 ^ 24 % 2 ^ 8 = v / 2 ^ 24 := Nat.mod_eq_of_lt hv
    simp [push_u32, push_bytes, to_be_u32, h1, h2, h3, h4]
    exact Nat.div_lt_of_lt_mul (by norm_num at h ⊢; exact h)

/-- Closed witness for `endianness_spec`, discharging the two bounded
hypotheses at `0x0102` and `0x01020304`. -/
theorem endianness_spec_witness :
    push_u16 [] 0x0102 = [] ++ [0x0102 >>> 8, 0x0102 % 2 ^ 8] ∧
    push_u32 [] 0x01020304 =
      [] ++ [0x01020304 >>> 24, 0x01020304 >>> 16 % 2 ^ 8,
             0x01020304 >>> 8 % 2 ^ 8, 0x01020304 % 2 ^ 8] :=
  ⟨endianness_spec.2.2.2.1 [] 0x0102 (by norm_num),
   endianness_spec.2.2.2.2.1 [] 0x01020304 (by norm_num)⟩

/-- C7: the sink pushes are infallible pure appends built on
`push_bytes`: `push_u8`/`push_u16`/`push_u32` delegate to `push_bytes`,
append exactly 1/2/4 bytes (the big-endian encoding of the value), and
leave the previously pushed contents unchanged as a prefix. -/
theorem sink_push_spec (s d : List Nat) (v : Nat) :
    push_bytes s d = s ++ d ∧
    push_u8 s v = push_bytes s (to_be_u8 v) ∧
    push_u16 s v = push_bytes s (to_be_u16 v) ∧
    push_u32 s v = push_bytes s (to_be_u32 v) ∧
    (to_be_u8 v).length = 1 ∧
    (to_be_u16 v).length = 2 ∧
    (to_be_u32 v).length = 4 ∧
    (push_u8 s v).take s.length = s ∧
    (push_u16 s v).take s.length = s ∧
    (push_u32 s v).take s.length = s ∧
    push_u8 s v = s ++ to_be_u8 v ∧
    push_u16 s v = s ++ to_be_u16 v ∧
    push_u32 s v = s ++ to_be_u32 v := by
  refine ⟨rfl, rfl, rfl, rfl, rfl, rfl, rfl, ?_, ?_, ?_, rfl, rfl, rfl⟩ <;>
    simp [push_u8, push_u16, push_u32, push_bytes]

theorem eq_dispatch_some (F : ConcreteFamily) (g1 g2 : GenericRecordData)
    (h : g1.rtype = g2.rtype) (D : ConcreteBundle)
    (hD : eqBundle F g1.rtype = some D) :
    g1.eq F g2 = rdata_eq D g1 g2 := by
  rcases g1 with ⟨t1, d1⟩
  rcases g2 with ⟨t2, d2⟩
  dsimp at h hD ⊢
  subst h
  cases t1 <;> simp [eqBundle] at hD <;> subst hD <;>
    simp [GenericRecordData.eq]

theorem eq_dispatch_none (F : ConcreteFamily) (g1 g2 : GenericRecordData)
    (h : g1.rtype = g2.rtype) (hN : eqBundle F g1.rtype = none) :
    g1.eq F g2 = decide (g1.data.bytes = g2.data.bytes) := by
  rcases g1 with ⟨t1, d1⟩
  rcases g2 with ⟨t2, d2⟩
  dsimp at h hN ⊢
  subst h
  cases t1 <;> simp [eqBundle] at hN <;> simp [GenericRecordData.eq]

/-- C1: generic equality compares the tags first and is false when they
differ; when the tags agree and are among the specially-handled RFC 1035
record types the source lists, equality is decided by re-parsing both
sides as the corresponding concrete type — in particular, when both
re-parses succeed, equality holds exactly when the two concrete values
are equal, with the raw bytes never consulted; for every other tag,
equality holds exactly when the raw captured nest bytes are identical. -/
theorem generic_eq_spec (F : ConcreteFamily) (g1 g2 : GenericRecordData) :
    (g1.rtype ≠ g2.rtype → g1.eq F g2 = false) ∧
    (g1.rtype = g2.rtype → ∀ D, eqBundle F g1.rtype = some D →
      g1.eq F g2 = rdata_eq D g1 g2 ∧
      ∀ v1 v2, parse_value D g1 = some (.ok v1) →
        parse_value D g2 = some (.ok v2) →
        (g1.eq F g2 = true ↔ v1 = v2)) ∧
    (g1.rtype = g2.rtype → eqBundle F g1.rtype = none →
      (g1.eq F g2 = true ↔ g1.data.bytes = g2.data.bytes)) := by
  refine ⟨?_, ?_, ?_⟩
  · intro h
    simp [GenericRecordData.eq, h]
  · intro h D hD
    have hd := eq_dispatch_some F g1 g2 h D hD
    refine ⟨hd, ?_⟩
    intro v1 v2 h1 h2
    rw [hd]
    simp only [rdata_eq, h1, h2, outcome_beq]
    simp
  · intro h hN
    have hd := eq_dispatch_none F g1 g2 h hN
    rw [hd]
    simp

/-- Closed witness for `generic_eq_spec`: a tag mismatch, a
specially-handled tag compared through concrete re-parses, and a
raw-byte-compared tag. -/
theorem generic_eq_spec_witness :
    (GenericRecordData.eq firstByteFamily ⟨.Cname, ⟨[5]⟩⟩ ⟨.Mx, ⟨[5]⟩⟩ = false) ∧
    (GenericRecordData.eq firstByteFamily ⟨.Cname, ⟨[5, 9]⟩⟩ ⟨.Cname, ⟨[5, 7]⟩⟩ =
      rdata_eq firstByteFamily.cname ⟨.Cname, ⟨[5, 9]⟩⟩ ⟨.Cname, ⟨[5, 7]⟩⟩) ∧
    (GenericRecordData.eq firstByteFamily ⟨.Cname, ⟨[5, 9]⟩⟩ ⟨.Cname, ⟨[5, 7]⟩⟩ = true ↔
      (5 : Nat) = 5) ∧
    (GenericRecordData.eq firstByteFamily ⟨.Other 999, ⟨[3]⟩⟩ ⟨.Other 999, ⟨[3]⟩⟩ = true ↔
      ([3] : List Nat) = [3]) :=
  ⟨(generic_eq_spec firstByteFamily ⟨.Cname, ⟨[5]⟩⟩ ⟨.Mx, ⟨[5]⟩⟩).1 (by decide),
   ((generic_eq_spec firstByteFamily ⟨.Cname, ⟨[5, 9]⟩⟩ ⟨.Cname, ⟨[5, 7]⟩⟩).2.1
      rfl firstByteFamily.cname rfl).1,
   ((generic_eq_spec firstByteFamily ⟨.Cname, ⟨[5, 9]⟩⟩ ⟨.Cname, ⟨[5, 7]⟩⟩).2.1
      rfl firstByteFamily.cname rfl).2 (5 : Nat) (5 : Nat) rfl rfl,
   (generic_eq_spec firstByteFamily ⟨.Other 999, ⟨[3]⟩⟩ ⟨.Other 999, ⟨[3]⟩⟩).2.2
      rfl rfl⟩

/-- C10: for the twelve specially-handled tags, generic equality is
exactly equality of the two full re-parse outcomes — including the
decline (`none`) and error outcomes — so two values whose raw nest bytes
differ but whose re-parses fail with equal errors, or both decline,
compare equal; the raw bytes are never consulted for these tags. -/
theorem generic_eq_outcomes (F : ConcreteFamily) (g1 g2 : GenericRecordData) :
    g1.rtype = g2.rtype → ∀ D, eqBundle F g1.rtype = some D →
      ((g1.eq F g2 = true ↔
         outcome_beq D (parse_value D g1) (parse_value D g2) = true) ∧
       (∀ e, parse_value D g1 = some (.error e) →
         parse_value D g2 = some (.error e) → g1.eq F g2 = true) ∧
       (parse_value D g1 = none → parse_value D g2 = none →
         g1.eq F g2 = true)) := by
  intro h D hD
  have hd := eq_dispatch_some F g1 g2 h D hD
  refine ⟨?_, ?_, ?_⟩
  · rw [hd]
    simp only [rdata_eq]
  · intro e h1 h2
    rw [hd]
    simp only [rdata_eq, h1, h2, outcome_beq]
    simp
  · intro h1 h2
    rw [hd]
    simp only [rdata_eq, h1, h2, outcome_beq]

/-- Closed witness for `generic_eq_outcomes`: two values with different
raw bytes whose re-parses fail with the same error compare equal; two
values with different raw bytes whose re-parses both decline compare
equal; and the outcome characterisation at a concrete input. -/
theorem generic_eq_outcomes_witness :
    (GenericRecordData.eq errorFamily ⟨.Soa, ⟨[1]⟩⟩ ⟨.Soa, ⟨[2, 3]⟩⟩ = true) ∧
    (GenericRecordData.eq declineFamily ⟨.Txt, ⟨[0]⟩⟩ ⟨.Txt, ⟨[1, 2, 3]⟩⟩ = true) ∧
    (GenericRecordData.eq firstByteFamily ⟨.Ns, ⟨[4, 1]⟩⟩ ⟨.Ns, ⟨[4, 2]⟩⟩ = true ↔
      outcome_beq firstByteFamily.ns
        (parse_value firstByteFamily.ns ⟨.Ns, ⟨[4, 1]⟩⟩)
        (parse_value firstByteFamily.ns ⟨.Ns, ⟨[4, 2]⟩⟩) = true) :=
  ⟨(generic_eq_outcomes errorFamily ⟨.Soa, ⟨[1]⟩⟩ ⟨.Soa, ⟨[2, 3]⟩⟩
      rfl errorFamily.soa rfl).2.1 .UnexpectedEnd rfl rfl,
   (generic_eq_outcomes declineFamily ⟨.Txt, ⟨[0]⟩⟩ ⟨.Txt, ⟨[1, 2, 3]⟩⟩
      rfl declineFamily.txt rfl).2.2 rfl rfl,
   (generic_eq_outcomes firstByteFamily ⟨.Ns, ⟨[4, 1]⟩⟩ ⟨.Ns, ⟨[4, 2]⟩⟩
      rfl firstByteFamily.ns rfl).1⟩

theorem display_dispatch_some (F : ConcreteFamily) (g : GenericRecordData)
    (D : ConcreteBundle) (hD : displayBundle F g.rtype = some D) (f : String) :
    g.displayFmt F f = g.fmtAs D f := by
  rcases g with ⟨t, d⟩
  dsimp at hD ⊢
  cases t <;> simp [displayBundle] at hD <;> subst hD <;>
    simp [GenericRecordData.displayFmt]

theorem display_dispatch_none (F : ConcreteFamily) (g : GenericRecordData)
    (hN : displayBundle F g.rtype = none) (f : String) :
    g.displayFmt F f = .ok (f ++ "...") := by
  rcases g with ⟨t, d⟩
  dsimp at hN ⊢
  cases t <;> simp [displayBundle] at hN <;> simp [GenericRecordData.displayFmt]

/-- C9: display formatting is best-effort: when the stored tag is in the
dispatch table but the concrete type's re-parse declines or fails,
formatting returns success with no output appended; when the tag is not
in the table, formatting appends the fixed placeholder. -/
theorem display_best_effort (F : ConcreteFamily) (g : GenericRecordData)
    (f : String) :
    (∀ D, displayBundle F g.rtype = some D →
      D.parse g.rtype g.data.parser = none ∨
        (∃ e, D.parse g.rtype g.data.parser = some (.error e)) →
      g.displayFmt F f = .ok f) ∧
    (displayBundle F g.rtype = none → g.displayFmt F f = .ok (f ++ "...")) := by
  refine ⟨?_, fun hN => display_dispatch_none F g hN f⟩
  intro D hD hfail
  rw [display_dispatch_some F g D hD f]
  rcases hfail with hn | ⟨e, he⟩
  · simp [GenericRecordData.fmtAs, hn]
  · simp [GenericRecordData.fmtAs, he]

/-- Closed witness for `display_best_effort`: a known tag whose re-parse
declines, a known tag whose re-parse fails, and an unknown tag. -/
theorem display_best_effort_witness :
    (GenericRecordData.displayFmt ⟨.A, ⟨[9]⟩⟩ declineFamily "x" = .ok "x") ∧
    (GenericRecordData.displayFmt ⟨.Soa, ⟨[]⟩⟩ errorFamily "x" = .ok "x") ∧
    (GenericRecordData.displayFmt ⟨.Other 256, ⟨[1]⟩⟩ declineFamily "x" =
      .ok ("x" ++ "...")) :=
  ⟨(display_best_effort declineFamily ⟨.A, ⟨[9]⟩⟩ "x").1 declineBundle rfl
      (Or.inl rfl),
   (display_best_effort errorFamily ⟨.Soa, ⟨[]⟩⟩ "x").1 errorBundle rfl
      (Or.inr ⟨.UnexpectedEnd, rfl⟩),
   (display_best_effort declineFamily ⟨.Other 256, ⟨[1]⟩⟩ "x").2 rfl⟩

theorem foldBytes_all (bs : List Nat) (len : Nat) (target : List Nat)
    (h : bs.length ≤ len) :
    foldBytes genericDataStep (len, target) bs =
      ((len - bs.length, target ++ bs.map (fun b => b % 2 ^ 8)), none) := by
  induction bs generalizing len target with
  | nil => simp [foldBytes]
  | cons v vs ih =>
    simp only [List.length_cons] at h
    have hlen : ¬ len = 0 := by omega
    simp only [foldBytes, genericDataStep, hlen, if_false, push_u8, push_bytes,
      to_be_u8]
    rw [ih (len - 1) (target ++ [v % 2 ^ 8]) (by omega)]
    simp only [List.map_cons, List.length_cons, Prod.mk.injEq, List.append_assoc,
      List.singleton_append, and_true, true_and]
    omega

theorem foldBytes_overflow (bs : List Nat) (len : Nat) (target : List Nat)
    (h : len < bs.length) :
    foldBytes genericDataStep (len, target) bs =
      ((0, target ++ (bs.take len).map (fun b => b % 2 ^ 8)),
       some .LongGenericData) := by
  induction bs generalizing len target with
  | nil => simp at h
  | cons v vs ih =>
    rcases len with _ | k
    · simp [foldBytes, genericDataStep]
    · simp only [List.length_cons] at h
      simp only [foldBytes, genericDataStep, Nat.succ_ne_zero, if_false,
        push_u8, push_bytes, to_be_u8, Nat.add_sub_cancel]
      rw [ih k (target ++ [v % 2 ^ 8]) (by omega)]
      simp [List.append_assoc]

theorem scanGenericLoop_words (pre : List (List Nat)) (rest : List Token)
    (n : Nat) (target : List Nat)
    (h : (pre.map List.length).sum < n) :
    scanGenericLoop (pre.map Token.hexWord ++ rest) n target =
      scanGenericLoop rest (n - (pre.map List.length).sum)
        (target ++ pre.flatten.map (fun b => b % 2 ^ 8)) := by
  induction pre generalizing n target with
  | nil => simp
  | cons w pre ih =>
    simp only [List.map_cons, List.sum_cons] at h
    have hn : n > 0 := by omega
    rw [List.map_cons, List.cons_append, scanGenericLoop]
    simp only [hn, if_true]
    rw [foldBytes_all w n target (by omega)]
    dsimp only
    rw [ih (n - w.length) (target ++ w.map (fun b => b % 2 ^ 8)) (by omega)]
    simp only [List.map_cons, List.sum_cons, List.flatten_cons, List.map_append,
      List.append_assoc]
    have harith : n - w.length - (pre.map List.length).sum =
        n - (w.length + (pre.map List.length).sum) := by omega
    rw [harith]

/-- C5 counterexample: with declared length 1 and the two presented hex
byte pairs split across two words (`\\# 1 0A 0B`), scanning succeeds after
committing one byte and leaves the second word unconsumed — it does not
fail with `LongGenericData`, contradicting the claim that it fails
whenever more hex byte pairs are presented than the declared length. -/
theorem scan_overrun_counterexample :
    GenericRecordData.scan_into
        ⟨[Token.lit markerBytes, Token.num 1, Token.hexWord [0x0A],
          Token.hexWord [0x0B]]⟩ [] =
      ([0x0A], ⟨[Token.hexWord [0x0B]]⟩, none) ∧
    (GenericRecordData.scan_into
        ⟨[Token.lit markerBytes, Token.num 1, Token.hexWord [0x0A],
          Token.hexWord [0x0B]]⟩ []).2.2 ≠ some ScanError.LongGenericData := by
  constructor
  · rfl
  · decide

/-- C5 amended: scanning `\\# 0002 0A0B` yields exactly `[0x0A, 0x0B]`;
scanning `\\# 0001 0A0B` fails with `LongGenericData` after committing
exactly one byte; and in general, whenever the declared length runs out
strictly inside a scanned hex word, scanning fails with `LongGenericData`
with exactly the declared number of bytes committed to the sink (hex
words that would only be reached after the declared length is exhausted
are left unconsumed and raise no error). -/
theorem scan_generic_amended :
    (GenericRecordData.scan_into
        ⟨[Token.lit markerBytes, Token.num 2, Token.hexWord [0x0A, 0x0B]]⟩ [] =
      ([0x0A, 0x0B], ⟨[]⟩, none)) ∧
    (GenericRecordData.scan_into
        ⟨[Token.lit markerBytes, Token.num 1, Token.hexWord [0x0A, 0x0B]]⟩ [] =
      ([0x0A], ⟨[]⟩, some .LongGenericData)) ∧
    (∀ n : Nat, ∀ pre : List (List Nat), ∀ w : List Nat,
      ∀ post : List (List Nat), ∀ target : List Nat,
      n < 2 ^ 16 →
      (pre.map List.length).sum < n →
      n < (pre.map List.length).sum + w.length →
      GenericRecordData.scan_into
          ⟨Token.lit markerBytes :: Token.num n ::
            (pre ++ w :: post).map Token.hexWord⟩ target =
        (target ++ (((pre.flatten ++ w).map (fun b => b % 2 ^ 8)).take n),
         ⟨post.map Token.hexWord⟩, some .LongGenericData) ∧
      (target ++ (((pre.flatten ++ w).map (fun b => b % 2 ^ 8)).take n)).length =
        target.length + n) := by
  refine ⟨by rfl, by rfl, ?_⟩
  intro n pre w post target hn h1 h2
  have hflen : (pre.flatten.map (fun b => b % 2 ^ 8)).length =
      (pre.map List.length).sum := by
    rw [List.length_map, List.length_flatten]
  constructor
  · unfold GenericRecordData.scan_into
    simp only [MasterStream.skip_literal, MasterStream.scan_u16,
      eq_self_iff_true, if_true, hn]
    rw [List.map_append, List.map_cons]
    rw [scanGenericLoop_words pre _ n target h1]
    have hpos : n - (pre.map List.length).sum > 0 := by omega
    rw [scanGenericLoop]
    simp only [hpos, if_true]
    rw [foldBytes_overflow w (n - (pre.map List.length).sum) _ (by omega)]
    dsimp only
    have hA : (pre.flatten.map (fun b => b % 2 ^ 8)).take n =
        pre.flatten.map (fun b => b % 2 ^ 8) :=
      List.take_of_length_le (by rw [hflen]; omega)
    have hcommit :
        (target ++ pre.flatten.map (fun b => b % 2 ^ 8)) ++
          (w.take (n - (pre.map List.length).sum)).map (fun b => b % 2 ^ 8) =
        target ++ (((pre.flatten ++ w).map (fun b => b % 2 ^ 8)).take n) := by
      rw [List.map_append, List.take_append_eq_append_take, hflen, hA,
        List.map_take, List.append_assoc]
    rw [hcommit]
  · have hlen : (((pre.flatten ++ w).map (fun b => b % 2 ^ 8)).take n).length = n := by
      rw [List.length_take, List.length_map, List.length_append,
        List.length_flatten]
      exact min_eq_left (by omega)
    rw [List.length_append, hlen]

/-- Closed witness for `scan_generic_amended`, discharging the straddle
hypotheses at `\\# 0001 0A0B` (declared length 1, one two-byte word). -/
theorem scan_generic_amended_witness :
    (GenericRecordData.scan_into
        ⟨Token.lit markerBytes :: Token.num 1 ::
          ([] ++ [0x0A, 0x0B] :: []).map Token.hexWord⟩ [] =
      ([] ++ ((([].flatten ++ [0x0A, 0x0B]).map (fun b => b % 2 ^ 8)).take 1),
       ⟨List.map Token.hexWord []⟩, some .LongGenericData) ∧
    ([] ++ ((([].flatten ++ [0x0A, 0x0B]).map (fun b => b % 2 ^ 8)).take 1)).length =
      List.length ([] : List Nat) + 1) :=
  scan_generic_amended.2.2 1 [] [0x0A, 0x0B] [] [] (by norm_num) (by simp)
    (by simp)

end Dns
